import Mathlib

/-
Verification development for the nexverra hybrid catalog backend
(src/backend/server.js).

The backend keeps product metadata in a structured-text artifact
(constant.tsx, holding `export const products = <JSON array>;`) and binary
payloads (ZIPs) in a MongoDB collection (ProductFile).  This file gives a
shallow embedding of the parts of server.js that carry the interesting
behavior:

 * the metadata-artifact read pipeline `readProductsFromConstant`
   (server.js lines 109-126): marker search, trim, trailing-semicolon strip,
   the two global regex passes stripping trailing commas, and JSON.parse
   with an empty-array fallback on any exception;
 * the metadata-artifact write `writeProductsToConstant`
   (server.js lines 128-138): `JSON.stringify(products, null, 2)` embedded
   in the marker template, written in place with fs.writeFile;
 * the catalog routes (add / update / delete / list, server.js 204-343)
   modelled as pure functions over typed product records that additionally
   return the trace of store operations they perform, in order;
 * the download resolution route (server.js 346-383);
 * a two-task interleaving model of the add handler's read-modify-write
   span, used to examine the behavior of concurrent catalog mutations
   (server.js has no lock or serialized queue around these handlers).

JavaScript conventions captured by the embedding: absent vs present object
fields are `Option`; JS truthiness of a string is "present and non-empty",
of a number is "present and non-zero", of an array is "present"; numbers
are modelled as `Int` (only zero-versus-nonzero and field transport matter
to the claims; no floating-point behavior is relied on).
-/

set_option autoImplicit false
set_option linter.unnecessarySeqFocus false

/-- The character `{` (kept as a named constant). -/
def lbrace : Char := Char.ofNat 123

/-- The character `}` (kept as a named constant). -/
def rbrace : Char := Char.ofNat 125

/-- The character `"` (kept as a named constant). -/
def quoteChar : Char := Char.ofNat 34

/-- JSON values as produced by `JSON.parse`.  Object fields keep their
textual order (JS objects preserve insertion order).  Numbers keep their
source lexeme: the claims never depend on numeric coercion of parsed
literals, only on parse success and structural content. -/
inductive Json where
  | null : Json
  | bool : Bool → Json
  | num : String → Json
  | str : String → Json
  | arr : List Json → Json
  | obj : List (String × Json) → Json

/-- Whitespace accepted by the JSON grammar (what `JSON.parse` skips). -/
def isJsonWs (c : Char) : Bool :=
  (c == ' ') || (c == '\t') || (c == '\n') || (c == '\r')

/-- The common members of the JS regex class `\s` (and of `String.trim`):
space, tab, line feed, carriage return, vertical tab, form feed.  (The JS
class also holds rare Unicode space characters; none of the claims turn on
them.) -/
def isRegexWs (c : Char) : Bool :=
  (c == ' ') || (c == '\t') || (c == '\n') || (c == '\r') ||
    (c == Char.ofNat 11) || (c == Char.ofNat 12)

/-- Skip JSON whitespace. -/
def skipJsonWs (cs : List Char) : List Char := cs.dropWhile isJsonWs

/-- Value of a hexadecimal digit, if the character is one. -/
def hexVal (c : Char) : Option Nat :=
  if c.isDigit then some (c.toNat - 48)
  else if 'a' ≤ c && c ≤ 'f' then some (c.toNat - 87)
  else if 'A' ≤ c && c ≤ 'F' then some (c.toNat - 55)
  else none

/-- Body of a JSON string literal (after the opening quote), with escape
decoding; fails on raw control characters and bad escapes, as `JSON.parse`
does.  Fuelled recursion; the fuel the callers pass always covers the
input length. -/
def parseStringAux : Nat → List Char → List Char → Option (String × List Char)
  | 0, _, _ => none
  | f + 1, acc, cs =>
    match cs with
    | [] => none
    | c :: rest =>
      if c == quoteChar then some (String.mk acc.reverse, rest)
      else if c == '\\' then
        match rest with
        | [] => none
        | e :: rest2 =>
          if e == quoteChar then parseStringAux f (quoteChar :: acc) rest2
          else if e == '\\' then parseStringAux f ('\\' :: acc) rest2
          else if e == '/' then parseStringAux f ('/' :: acc) rest2
          else if e == 'b' then parseStringAux f (Char.ofNat 8 :: acc) rest2
          else if e == 'f' then parseStringAux f (Char.ofNat 12 :: acc) rest2
          else if e == 'n' then parseStringAux f ('\n' :: acc) rest2
          else if e == 'r' then parseStringAux f ('\r' :: acc) rest2
          else if e == 't' then parseStringAux f ('\t' :: acc) rest2
          else if e == 'u' then
            match rest2 with
            | h1 :: h2 :: h3 :: h4 :: rest3 =>
              match hexVal h1, hexVal h2, hexVal h3, hexVal h4 with
              | some a, some b, some c2, some d2 =>
                parseStringAux f (Char.ofNat (((a * 16 + b) * 16 + c2) * 16 + d2) :: acc) rest3
              | _, _, _, _ => none
            | _ => none
          else none
      else if c.toNat < 32 then none
      else parseStringAux f (c :: acc) rest

/-- Parse a JSON string literal body. -/
def parseStringBody (cs : List Char) : Option (String × List Char) :=
  parseStringAux (cs.length + 1) [] cs

/-- Parse a JSON number at the head of the input, per the JSON grammar
(`-? int frac? exp?`, no leading `+`, no leading zeros, no bare `.`).
Returns the lexeme. -/
def parseNumber (cs : List Char) : Option (Json × List Char) :=
  let (sign, cs1) :=
    match cs with
    | '-' :: t => (['-'], t)
    | _ => (([] : List Char), cs)
  let intPart : Option (List Char × List Char) :=
    match cs1 with
    | '0' :: t => some (['0'], t)
    | c :: t =>
      if '1' ≤ c && c ≤ '9' then
        some (c :: t.takeWhile Char.isDigit, t.dropWhile Char.isDigit)
      else none
    | [] => none
  match intPart with
  | none => none
  | some (ip, cs2) =>
    let fracPart : Option (List Char × List Char) :=
      match cs2 with
      | '.' :: t =>
        let ds := t.takeWhile Char.isDigit
        if ds == [] then none else some ('.' :: ds, t.dropWhile Char.isDigit)
      | _ => some ([], cs2)
    match fracPart with
    | none => none
    | some (fp, cs3) =>
      let expPart : Option (List Char × List Char) :=
        match cs3 with
        | c :: t =>
          if c == 'e' || c == 'E' then
            let (sgn, t2) :=
              match t with
              | s :: t2 => if s == '+' || s == '-' then ([s], t2) else (([] : List Char), t)
              | [] => (([] : List Char), t)
            let ds := t2.takeWhile Char.isDigit
            if ds == [] then none else some (c :: (sgn ++ ds), t2.dropWhile Char.isDigit)
          else some ([], cs3)
        | [] => some ([], cs3)
      match expPart with
      | none => none
      | some (ep, cs4) => some (Json.num (String.mk (sign ++ ip ++ fp ++ ep)), cs4)

mutual

/-- Parse one JSON value (the recursive core of `JSON.parse`).  Fuelled;
`jsonParse` passes fuel that always covers the input. -/
def parseValue : Nat → List Char → Option (Json × List Char)
  | 0, _ => none
  | fuel + 1, cs0 =>
    let cs := skipJsonWs cs0
    match cs with
    | [] => none
    | c :: rest =>
      if c == quoteChar then
        match parseStringBody rest with
        | some (s, r) => some (Json.str s, r)
        | none => none
      else if c == '[' then
        match skipJsonWs rest with
        | ']' :: r2 => some (Json.arr [], r2)
        | r1 =>
          match parseArrItems fuel r1 with
          | some (vs, r2) => some (Json.arr vs, r2)
          | none => none
      else if c == lbrace then
        match skipJsonWs rest with
        | b :: r2 =>
          if b == rbrace then some (Json.obj [], r2)
          else
            match parseObjItems fuel (b :: r2) with
            | some (kvs, r3) => some (Json.obj kvs, r3)
            | none => none
        | [] => none
      else if cs.take 4 == ['t', 'r', 'u', 'e'] then some (Json.bool true, cs.drop 4)
      else if cs.take 5 == ['f', 'a', 'l', 's', 'e'] then some (Json.bool false, cs.drop 5)
      else if cs.take 4 == ['n', 'u', 'l', 'l'] then some (Json.null, cs.drop 4)
      else parseNumber cs

/-- Comma-separated JSON values up to a closing `]` (at least one value). -/
def parseArrItems : Nat → List Char → Option (List Json × List Char)
  | 0, _ => none
  | fuel + 1, cs =>
    match parseValue fuel cs with
    | none => none
    | some (v, r1) =>
      match skipJsonWs r1 with
      | ',' :: r2 =>
        match parseArrItems fuel r2 with
        | some (vs, r3) => some (v :: vs, r3)
        | none => none
      | c :: r2 => if c == ']' then some ([v], r2) else none
      | [] => none

/-- Comma-separated `"key": value` pairs up to a closing brace
(at least one pair). -/
def parseObjItems : Nat → List Char → Option (List (String × Json) × List Char)
  | 0, _ => none
  | fuel + 1, cs =>
    match skipJsonWs cs with
    | c :: r1 =>
      if c == quoteChar then
        match parseStringBody r1 with
        | some (k, r2) =>
          match skipJsonWs r2 with
          | ':' :: r3 =>
            match parseValue fuel r3 with
            | some (v, r4) =>
              match skipJsonWs r4 with
              | ',' :: r5 =>
                match parseObjItems fuel r5 with
                | some (kvs, r6) => some ((k, v) :: kvs, r6)
                | none => none
              | b :: r5 => if b == rbrace then some ([(k, v)], r5) else none
              | [] => none
            | none => none
          | _ => none
        | none => none
      else none
    | [] => none

end

/-- `JSON.parse`: parse one value and require only whitespace to remain,
else fail (JS throws a SyntaxError; the model returns `none`). -/
def jsonParse (cs : List Char) : Option Json :=
  match parseValue (2 * cs.length + 8) cs with
  | some (v, rest) => if skipJsonWs rest == [] then some v else none
  | none => none

/-- The marker the read helper searches for in constant.tsx
(server.js line 112). -/
def productsMarker : List Char := "export const products = ".toList

/-- `data.indexOf(pat)` followed by `data.substring(index + pat.length)`:
the suffix after the first occurrence of `pat`, or `none` when `pat` does
not occur (server.js lines 113-116). -/
def afterFirstOccurrence (pat : List Char) : List Char → Option (List Char)
  | [] => if pat == [] then some [] else none
  | c :: rest =>
    if (c :: rest).take pat.length == pat then some ((c :: rest).drop pat.length)
    else afterFirstOccurrence pat rest

/-- `String.prototype.trim` on a character list. -/
def trimWsList (cs : List Char) : List Char :=
  ((cs.dropWhile isRegexWs).reverse.dropWhile isRegexWs).reverse

/-- `if (jsonStr.endsWith(";")) jsonStr = jsonStr.slice(0, -1)`
(server.js line 117). -/
def dropTrailingSemi (cs : List Char) : List Char :=
  match cs.reverse with
  | ';' :: rest => rest.reverse
  | _ => cs

/-- One global pass of `.replace(/,\s*CLOSE/g, CLOSE)`: scanning left to
right, every comma followed by whitespace and then the closing delimiter
is replaced by the bare delimiter; scanning resumes after the replacement
(exact JS global-replace behavior for this pattern, since the delimiter is
not itself a whitespace character).  Fuelled by input length; each step
consumes at least one character, so the fuel never runs out. -/
def replaceCommaCloseAux (close : Char) : Nat → List Char → List Char
  | _, [] => []
  | 0, cs => cs
  | f + 1, c :: rest =>
    if c == ',' then
      match rest.dropWhile isRegexWs with
      | x :: t =>
        if x == close then close :: replaceCommaCloseAux close f t
        else ',' :: replaceCommaCloseAux close f rest
      | [] => ',' :: rest
    else c :: replaceCommaCloseAux close f rest

/-- `.replace(/,\s*CLOSE/g, CLOSE)` (server.js line 120). -/
def replaceCommaClose (close : Char) (cs : List Char) : List Char :=
  replaceCommaCloseAux close cs.length cs

/-- The text handed to `JSON.parse` by `readProductsFromConstant`:
suffix after the marker (or `none` when the marker is absent), trimmed,
trailing semicolon stripped, then the two trailing-comma regex passes of
server.js line 120 (first `,\s*]` then `,\s*}`). -/
def cleanedPayloadOf (data : String) : Option (List Char) :=
  match afterFirstOccurrence productsMarker data.toList with
  | none => none
  | some suffix =>
    let jsonStr := dropTrailingSemi (trimWsList suffix)
    some (replaceCommaClose rbrace (replaceCommaClose ']' jsonStr))

/-- `readProductsFromConstant` (server.js lines 109-126).  The argument is
the artifact content, `none` when `fs.readFile` fails (missing file).
Any failure — read error, absent marker, or a `JSON.parse` exception —
is caught and yields the empty array. -/
def readProductsFromConstant (file : Option String) : Json :=
  match file with
  | none => Json.arr []
  | some data =>
    match cleanedPayloadOf data with
    | none => Json.arr []
    | some cs =>
      match jsonParse cs with
      | some v => v
      | none => Json.arr []

/-- Hexadecimal digit character for a value below 16. -/
def hexDigit (n : Nat) : Char :=
  if n < 10 then Char.ofNat (48 + n) else Char.ofNat (87 + n)

/-- `JSON.stringify` escaping of one character inside a string literal. -/
def escapeJsonChar (c : Char) : List Char :=
  if c == quoteChar then ['\\', quoteChar]
  else if c == '\\' then ['\\', '\\']
  else if c == '\n' then ['\\', 'n']
  else if c == '\r' then ['\\', 'r']
  else if c == '\t' then ['\\', 't']
  else if c == Char.ofNat 8 then ['\\', 'b']
  else if c == Char.ofNat 12 then ['\\', 'f']
  else if c.toNat < 32 then ['\\', 'u', '0', '0', hexDigit (c.toNat / 16), hexDigit (c.toNat % 16)]
  else [c]

/-- `JSON.stringify` rendering of a string. -/
def quoteJsonString (s : String) : String :=
  String.mk (quoteChar :: ((s.toList.map escapeJsonChar).flatten ++ [quoteChar]))

/-- Two spaces of indentation per level (`JSON.stringify(v, null, 2)`). -/
def indentOf (lvl : Nat) : String := String.mk (List.replicate (2 * lvl) ' ')

mutual

/-- `JSON.stringify(v, null, 2)` at a given indentation level. -/
def stringifyJson : Nat → Json → String
  | _, .null => "null"
  | _, .bool b => if b then "true" else "false"
  | _, .num lex => lex
  | _, .str s => quoteJsonString s
  | _, .arr [] => "[]"
  | lvl, .arr (v :: vs) =>
    "[\n" ++ String.intercalate ",\n" (stringifyItems (lvl + 1) (v :: vs)) ++ "\n" ++
      indentOf lvl ++ "]"
  | _, .obj [] => String.mk [lbrace, rbrace]
  | lvl, .obj (kv :: kvs) =>
    String.mk [lbrace] ++ "\n" ++
      String.intercalate ",\n" (stringifyPairs (lvl + 1) (kv :: kvs)) ++ "\n" ++
      indentOf lvl ++ String.mk [rbrace]

/-- Array items, each on its own indented line. -/
def stringifyItems : Nat → List Json → List String
  | _, [] => []
  | lvl, v :: vs => (indentOf lvl ++ stringifyJson lvl v) :: stringifyItems lvl vs

/-- Object fields, each on its own indented line. -/
def stringifyPairs : Nat → List (String × Json) → List String
  | _, [] => []
  | lvl, (k, v) :: kvs =>
    (indentOf lvl ++ quoteJsonString k ++ ": " ++ stringifyJson lvl v) :: stringifyPairs lvl kvs

end

/-- The full artifact content produced by `writeProductsToConstant`
(server.js line 131):
`export const products = JSON.stringify(products, null, 2);`. -/
def writeContent (products : Json) : String :=
  "export const products = " ++ stringifyJson 0 products ++ ";"

/-- Content of the target file when an in-place write is interrupted after
`k` characters.  `writeProductsToConstant` (server.js line 132) calls
`fs.writeFile(CONSTANT_FILE_PATH, content)` directly on the artifact path
— Node opens the path with flag w, truncating it to empty, and then writes
the data sequentially; there is no temporary file and no rename.  A write
that fails after `k` characters therefore leaves the file holding exactly
the first `k` characters of the new content, whatever it held before. -/
def writeInterrupted (newContent : String) (k : Nat) : String :=
  String.mk (newContent.toList.take k)

/-- A parsed product record as the routes handle it (the JSON objects in
constant.tsx, with the schema the add route creates: server.js 246-256). -/
structure Product where
  id : String
  title : String
  description : String
  features : List String
  images : List String
  price : Int
  category : String
  type : String
  downloadableFileName : Option String
  deriving DecidableEq

/-- A `downloadableFile` object as sent in request bodies and stored on
orders: `\x7b fileName, fileData \x7d`, each field possibly absent. -/
structure DFile where
  fileName : Option String := none
  fileData : Option String := none
  deriving DecidableEq

/-- JS truthiness of a possibly-absent string: present and non-empty. -/
def jsTruthyStr : Option String → Bool
  | none => false
  | some s => !(s == "")

/-- JS truthiness of a possibly-absent number: present and non-zero. -/
def jsTruthyInt : Option Int → Bool
  | none => false
  | some n => !(n == 0)

/-- JS truthiness of a possibly-absent array: arrays are always truthy,
including the empty array. -/
def jsTruthyList : Option (List String) → Bool
  | none => false
  | some _ => true

/-- `x || d` for a possibly-absent string: the string when truthy,
otherwise the default. -/
def jsStrOrElse (o : Option String) (d : String) : String :=
  match o with
  | some s => if s == "" then d else s
  | none => d

/-- The test `downloadableFile && downloadableFile.fileData` (server.js
lines 237, 279, 359): when the object is present with truthy `fileData`,
returns the pair `(fileName, fileData)` it goes on to use. -/
def dfTruthyData : Option DFile → Option (Option String × String)
  | some df =>
    match df.fileData with
    | some d => if d == "" then none else some (df.fileName, d)
    | none => none
  | none => none

/-- One mutation against the two stores, as the handlers issue them.
`blobCreate` is `ProductFile.create`, `blobUpsert` is
`ProductFile.findOneAndUpdate(..., upsert)`, `blobDelete` is
`ProductFile.deleteOne`, `metaWrite` is `writeProductsToConstant`.
A handler run is modelled as the ordered list of the store mutations it
performed. -/
inductive StoreOp where
  | blobCreate : String → Option String → String → StoreOp
  | blobUpsert : String → Option String → String → StoreOp
  | blobDelete : String → StoreOp
  | metaWrite : List Product → StoreOp
  deriving DecidableEq

/-- The error responses of the catalog routes. -/
inductive ApiErr where
  | validation
  | notFound
  | persistence
  deriving DecidableEq

/-- Body of `POST /api/products` (server.js line 228). -/
structure AddReq where
  title : Option String := none
  description : Option String := none
  features : Option (List String) := none
  images : Option (List String) := none
  price : Option Int := none
  category : Option String := none
  type : Option String := none
  downloadableFile : Option DFile := none
  deriving DecidableEq

/-- The validation gate of the add route (server.js lines 229-231):
`if (!title || !description || !images || !price || !category)` rejects;
the request passes exactly when all five are JS-truthy. -/
def validateAdd (r : AddReq) : Bool :=
  jsTruthyStr r.title && jsTruthyStr r.description && jsTruthyList r.images &&
    jsTruthyInt r.price && jsTruthyStr r.category

/-- The metadata record the add route builds (server.js lines 246-256):
`features` and `images` default to `[]` when not arrays, `type` defaults to
"dashboard" when falsy, `downloadableFileName` is
`downloadableFile?.fileName || null` (independent of `fileData`).  `title`,
`description`, `price` and `category` are used as received; the route only
reaches this point when validation proved them truthy (so present). -/
def newProductOf (r : AddReq) (freshId : String) : Product :=
  { id := freshId
    title := r.title.getD ""
    description := r.description.getD ""
    features := r.features.getD []
    images := r.images.getD []
    price := r.price.getD 0
    category := r.category.getD ""
    type := jsStrOrElse r.type "dashboard"
    downloadableFileName :=
      match r.downloadableFile with
      | some df => if jsTruthyStr df.fileName then df.fileName else none
      | none => none }

/-- `POST /api/products` (server.js lines 226-266).  `freshId` stands for
the `crypto.randomUUID()` result, `products` for the current artifact
content, and `blobOk` injects the outcome of the `ProductFile.create` call:
when it rejects, the outer catch returns the 500 error before any further
store step runs.  Result: the ordered store-mutation trace and either the
created record or the error response. -/
def addProduct (r : AddReq) (freshId : String) (blobOk : Bool)
    (products : List Product) : List StoreOp × Except ApiErr Product :=
  if validateAdd r = false then ([], .error .validation)
  else
    match dfTruthyData r.downloadableFile with
    | some (fn, d) =>
      if blobOk then
        let p := newProductOf r freshId
        ([.blobCreate freshId fn d, .metaWrite (p :: products)], .ok p)
      else ([], .error .persistence)
    | none =>
      let p := newProductOf r freshId
      ([.metaWrite (p :: products)], .ok p)

/-- The `downloadableFile` field of an update body (server.js line 272):
absent, explicitly `null`, or an object. -/
inductive PayloadField where
  | absent
  | nullClear
  | given : DFile → PayloadField
  deriving DecidableEq

/-- The metadata fields an update body may carry after `downloadableFile`
is destructured away (server.js line 272): any subset of the product
schema, `id` and `downloadableFileName` included — the route spreads
whatever the caller sent.  For `downloadableFileName` the value itself is
nullable (`some none` models an explicit `null`). -/
structure UpdateFields where
  id : Option String := none
  title : Option String := none
  description : Option String := none
  features : Option (List String) := none
  images : Option (List String) := none
  price : Option Int := none
  category : Option String := none
  type : Option String := none
  downloadableFileName : Option (Option String) := none
  deriving DecidableEq

/-- `\x7b ...products[index], ...metadata, id \x7d` (server.js lines
293-297): every field the caller supplied overrides the stored one, the
`downloadableFileName` slot is taken from `dfnOverride` (the value the
payload branches assigned into `metadata`, or the caller's own field when
they assigned none), and `id` is forced back to the route parameter. -/
def mergeFields (id : String) (old : Product) (f : UpdateFields)
    (dfnOverride : Option (Option String)) : Product :=
  { id := id
    title := f.title.getD old.title
    description := f.description.getD old.description
    features := f.features.getD old.features
    images := f.images.getD old.images
    price := f.price.getD old.price
    category := f.category.getD old.category
    type := f.type.getD old.type
    downloadableFileName :=
      match dfnOverride with
      | some v => v
      | none => old.downloadableFileName }

/-- The payload branch of the update route (server.js lines 279-290) plus
the merge (lines 293-297): new payload with truthy data → upsert the blob
and set `downloadableFileName` to its file name; explicit `null` → delete
the blob and set `downloadableFileName` to `null`; anything else (absent,
or an object without truthy data) → no blob operation and the caller's
metadata merges unchanged. -/
def applyUpdate (id : String) (payload : PayloadField) (f : UpdateFields)
    (old : Product) : List StoreOp × Product :=
  match payload with
  | .given df =>
    match dfTruthyData (some df) with
    | some (fn, d) => ([.blobUpsert id fn d], mergeFields id old f (some fn))
    | none => ([], mergeFields id old f f.downloadableFileName)
  | .nullClear => ([.blobDelete id], mergeFields id old f (some none))
  | .absent => ([], mergeFields id old f f.downloadableFileName)

/-- `products.findIndex(p => p.id === id)` followed by `products[index]`:
the first record with the given id. -/
def findFirstProduct (id : String) : List Product → Option Product
  | [] => none
  | p :: rest => if p.id == id then some p else findFirstProduct id rest

/-- `products[index] = updatedProduct` at the `findIndex` position:
replace the first record with the given id. -/
def replaceFirstProduct (id : String) (newP : Product) : List Product → List Product
  | [] => []
  | p :: rest => if p.id == id then newP :: rest else p :: replaceFirstProduct id newP rest

/-- `PUT /api/products/:id` (server.js lines 269-306).  Looks the id up
first; a miss returns the 404 before any store step.  On a hit it runs the
payload branch, merges, and writes the whole collection.  Result: the
ordered store-mutation trace and either (new collection, updated record)
or the error response. -/
def updateProduct (id : String) (payload : PayloadField) (f : UpdateFields)
    (products : List Product) : List StoreOp × Except ApiErr (List Product × Product) :=
  match findFirstProduct id products with
  | none => ([], .error .notFound)
  | some old =>
    let r := applyUpdate id payload f old
    let products2 := replaceFirstProduct id r.2 products
    (r.1 ++ [.metaWrite products2], .ok (products2, r.2))

/-- A user record, of which the listing route reads only the wishlist
(server.js line 210). -/
structure UserRec where
  wishlist : List String
  deriving DecidableEq

/-- `GET /api/products` (server.js lines 204-223).  `identity` is the
optional id from the soft-auth middleware, `findUser` the
`User.findById` lookup (`none` when no user document matches).  With an
identity, the wishlist is `user?.wishlist || []` and each record gets
`wishlisted = wishlistSet.has(p.id)`; without one, every record gets
`wishlisted = false`. -/
def listCatalog (identity : Option String) (findUser : String → Option UserRec)
    (products : List Product) : List (Product × Bool) :=
  match identity with
  | some uid =>
    let wl := match findUser uid with
      | some u => u.wishlist
      | none => []
    products.map (fun p => (p, wl.contains p.id))
  | none => products.map (fun p => (p, false))

/-- An order document, in the fields the download route reads
(server.js lines 346-372). -/
structure OrderRec where
  user : String
  downloadableFile : Option DFile := none
  isProductOrder : Bool := false
  productIds : List String := []
  deriving DecidableEq

/-- A ProductFile document (blob-store record), fields as the schema
declares them (server.js lines 43-47). -/
structure BlobRec where
  fileName : Option String := none
  fileData : Option String := none
  deriving DecidableEq

/-- Outcome of `GET /api/orders/:id/download`. -/
inductive DownloadResult where
  | orderNotFound
  | forbidden
  | noDeliverable
  | file : String → String → DownloadResult
  deriving DecidableEq

/-- `GET /api/orders/:id/download` (server.js lines 346-383).  `orderOpt`
is the `Order.findById` result, `blobs` the
`ProductFile.findOne(\x7b productId \x7d)` lookup.  Order of checks: order
existence; owner-or-admin; the order's own payload when its `fileData` is
truthy; otherwise, for a product order with a non-empty `productIds`, the
blob of the FIRST id only; a falsy `fileData` at the end is the 404
"No deliverable file found"; the served name is
`fileName || "download.zip"`. -/
def resolveDownload (orderOpt : Option OrderRec) (callerId : String)
    (callerRole : String) (blobs : String → Option BlobRec) : DownloadResult :=
  match orderOpt with
  | none => .orderNotFound
  | some ord =>
    if !(ord.user == callerId) && !(callerRole == "admin") then .forbidden
    else
      let found : Option String × Option String :=
        match dfTruthyData ord.downloadableFile with
        | some (fn, d) => (fn, some d)
        | none =>
          match (if ord.isProductOrder then ord.productIds else []) with
          | [] => (none, none)
          | p1 :: _ =>
            match blobs p1 with
            | some blob => (blob.fileName, blob.fileData)
            | none => (none, none)
      match found.2 with
      | none => .noDeliverable
      | some d => if d == "" then .noDeliverable else .file (jsStrOrElse found.1 "download.zip") d

/-- Two concurrent add handlers over the shared artifact, at the
granularity of their await points (server.js lines 226-266 contain no
lock, queue, or other mutual exclusion, and none exists anywhere in
server.js).  Each handler first reads the collection
(`readProductsFromConstant`, an await), later writes back its snapshot
with its own product unshifted (`writeProductsToConstant`, an await);
between the two awaits the event loop may run the other handler.  The
store is abstracted to the list of product ids it holds.  A task is
`none` before its read and `some snapshot` after; a scheduled step runs
the task's next await: first its read, then its write.  `true` steps task
A (adding `pidA`), `false` steps task B (adding `pidB`). -/
def runAddSchedule (pidA pidB : String) : List Bool → List String →
    Option (List String) → Option (List String) → List String
  | [], store, _, _ => store
  | step :: rest, store, snapA, snapB =>
    if step then
      match snapA with
      | none => runAddSchedule pidA pidB rest store (some store) snapB
      | some snap => runAddSchedule pidA pidB rest (pidA :: snap) snapA snapB
    else
      match snapB with
      | none => runAddSchedule pidA pidB rest store snapA (some store)
      | some snap => runAddSchedule pidA pidB rest (pidB :: snap) snapA snapB

/-- A sample stored product used by concrete instantiations. -/
def prodOne : Product :=
  { id := "p1", title := "t", description := "d", features := [], images := ["i"],
    price := 5, category := "c", type := "dashboard", downloadableFileName := some "orig.zip" }

/-- `prodOne` after an update body smuggled `downloadableFileName` in as a
plain metadata field. -/
def prodSneaky : Product := { prodOne with downloadableFileName := some "sneaky.zip" }

/-- A sample add request carrying a downloadable payload. -/
def addReqSample : AddReq :=
  { title := some "t", description := some "d", images := some ["i"], price := some 5,
    category := some "c",
    downloadableFile := some { fileName := some "f.zip", fileData := some "DATA" } }

/-- An add request with every required field present and `price = 0`. -/
def addReqPriceZero : AddReq :=
  { title := some "t", description := some "d", images := some ["i"], price := some 0,
    category := some "c" }

/-- An add request with every required field present, a present but empty
`images` array, and a non-zero price. -/
def addReqEmptyImages : AddReq :=
  { title := some "t", description := some "d", images := some [], price := some 7,
    category := some "c" }

theorem findFirstProduct_append (id : String) (post : List Product) (old : Product)
    (hold : old.id = id) :
    ∀ pre : List Product, (∀ p ∈ pre, p.id ≠ id) →
      findFirstProduct id (pre ++ old :: post) = some old := by
  intro pre
  induction pre with
  | nil => intro _; simp [findFirstProduct, hold]
  | cons p ps ih =>
    intro h
    have hp : (p.id == id) = false := by
      simpa using h p (List.mem_cons_self p ps)
    simp only [List.cons_append, findFirstProduct, hp, Bool.false_eq_true, if_false]
    exact ih (fun q hq => h q (List.mem_cons_of_mem p hq))

theorem replaceFirstProduct_append (id : String) (post : List Product) (old m : Product)
    (hold : old.id = id) :
    ∀ pre : List Product, (∀ p ∈ pre, p.id ≠ id) →
      replaceFirstProduct id m (pre ++ old :: post) = pre ++ m :: post := by
  intro pre
  induction pre with
  | nil => intro _; simp [replaceFirstProduct, hold]
  | cons p ps ih =>
    intro h
    have hp : (p.id == id) = false := by
      simpa using h p (List.mem_cons_self p ps)
    simp only [List.cons_append, replaceFirstProduct, hp, Bool.false_eq_true, if_false]
    exact congrArg (p :: ·) (ih (fun q hq => h q (List.mem_cons_of_mem p hq)))

theorem findFirstProduct_eq_none (id : String) :
    ∀ products : List Product, (∀ p ∈ products, p.id ≠ id) →
      findFirstProduct id products = none := by
  intro products
  induction products with
  | nil => intro _; rfl
  | cons p ps ih =>
    intro h
    have hp : (p.id == id) = false := by
      simpa using h p (List.mem_cons_self p ps)
    simp only [findFirstProduct, hp, Bool.false_eq_true, if_false]
    exact ih (fun q hq => h q (List.mem_cons_of_mem p hq))

/-- Every payload branch of the update route produces some blob-op list
together with the uniform field merge, differing only in the
`downloadableFileName` override it feeds the merge. -/
theorem applyUpdate_merge (id : String) (payload : PayloadField) (f : UpdateFields)
    (old : Product) :
    ∃ ops dfnOv, applyUpdate id payload f old = (ops, mergeFields id old f dfnOv) := by
  cases payload with
  | absent => exact ⟨[], f.downloadableFileName, rfl⟩
  | nullClear => exact ⟨[.blobDelete id], some none, rfl⟩
  | given df =>
    cases h : dfTruthyData (some df) with
    | none => exact ⟨[], f.downloadableFileName, by simp [applyUpdate, h]⟩
    | some fd => exact ⟨[.blobUpsert id fd.1 fd.2], some fd.1, by simp [applyUpdate, h]⟩

/-- C1: the claim reads: concurrent catalog mutations are serialized
through a single in-process execution point holding mutual exclusion over
the full read-modify-write span, so concurrent Adds of two distinct
products lose neither.  server.js has no such serialization: the add
handler awaits between its collection read and its collection write, so
two in-flight adds can both read the same snapshot.  Under the schedule
"A reads, B reads, A writes, B writes" from an empty store, the final
store holds only B's product: A's add is silently lost, while the
sequential application of the same two operations holds both. -/
theorem c1_concurrent_add_lost_update :
    runAddSchedule "pA" "pB" [true, false, true, false] [] none none = ["pB"]
    ∧ runAddSchedule "pA" "pB" [true, true, false, false] [] none none = ["pB", "pA"]
    ∧ "pA" ∉ runAddSchedule "pA" "pB" [true, false, true, false] [] none none
    ∧ runAddSchedule "pA" "pB" [true, false, true, false] [] none none ≠
        runAddSchedule "pA" "pB" [true, true, false, false] [] none none := by
  refine ⟨rfl, rfl, by decide, by decide⟩

/-- C2: the claim reads: a failed `writeAll` leaves the previous artifact
content fully intact, because the write is an atomic replace and never a
partial in-place edit.  `writeProductsToConstant` (server.js line 132)
instead calls `fs.writeFile` directly on the artifact path, which
truncates in place and then writes.  Starting from an artifact holding one
product, a write of the new content that fails after 0 characters leaves
the file empty, and after 5 characters leaves the partial text "expor" —
in both cases the previous content is destroyed, and the surviving
artifact no longer parses to the previous catalog. -/
theorem c2_write_not_atomic_replace :
    writeContent (Json.arr [Json.obj [("id", Json.str "p0")]]) =
      "export const products = [\n  \x7b\n    \"id\": \"p0\"\n  \x7d\n];"
    ∧ writeInterrupted (writeContent (Json.arr [])) 0 = ""
    ∧ writeInterrupted (writeContent (Json.arr [])) 5 = "expor"
    ∧ "" ≠ writeContent (Json.arr [Json.obj [("id", Json.str "p0")]])
    ∧ "expor" ≠ writeContent (Json.arr [Json.obj [("id", Json.str "p0")]])
    ∧ "expor" ≠ writeContent (Json.arr [])
    ∧ readProductsFromConstant
        (some (writeContent (Json.arr [Json.obj [("id", Json.str "p0")]]))) =
        Json.arr [Json.obj [("id", Json.str "p0")]]
    ∧ readProductsFromConstant (some "") = Json.arr [] := by
  refine ⟨rfl, rfl, rfl, by decide, by decide, by decide, rfl, rfl⟩

/-- C3: for an authorized download request, resolution follows strict
precedence: an order payload with non-empty data is returned as-is (the
product-id path is never reached, whatever `productIds` holds); otherwise
a product order with a non-empty id sequence consults only the first id,
and when the blob store has nothing for that id the result is the
no-deliverable failure regardless of what blobs exist for the later ids
(the blob lookup `blobs` is arbitrary away from the first id). -/
theorem c3_download_resolution_precedence (ord : OrderRec) (cid role : String)
    (blobs : String → Option BlobRec) (hauth : ord.user = cid ∨ role = "admin") :
    (∀ df d, ord.downloadableFile = some df → df.fileData = some d → d ≠ "" →
      resolveDownload (some ord) cid role blobs =
        .file (jsStrOrElse df.fileName "download.zip") d)
    ∧ (dfTruthyData ord.downloadableFile = none → ord.isProductOrder = true →
        ∀ p1 rest, ord.productIds = p1 :: rest → blobs p1 = none →
          resolveDownload (some ord) cid role blobs = .noDeliverable) := by
  have hcond : (!(ord.user == cid) && !(role == "admin")) = false := by
    cases hauth with
    | inl h => simp [h]
    | inr h => simp [h]
  constructor
  · intro df d hdf hd hne
    have ht : dfTruthyData ord.downloadableFile = some (df.fileName, d) := by
      simp [dfTruthyData, hdf, hd, hne]
    simp [resolveDownload, hcond, ht, hne]
  · intro hnone hpo p1 rest hids hblob
    simp [resolveDownload, hcond, hnone, hpo, hids, hblob]

/-- C3 witness: an order owning its payload resolves to that payload even
though its `productIds` is non-empty; an order with `productIds = [p1, p2]`,
no blob for p1 but a blob for p2, resolves to no-deliverable. -/
theorem c3_download_resolution_precedence_witness :
    resolveDownload
      (some { user := "u1",
              downloadableFile := some { fileName := some "own.zip", fileData := some "OWN" },
              isProductOrder := true, productIds := ["p1"] })
      "u1" "customer" (fun _ => none) = DownloadResult.file "own.zip" "OWN"
    ∧ resolveDownload
      (some { user := "u1", isProductOrder := true, productIds := ["p1", "p2"] })
      "u1" "customer"
      (fun k => if k == "p2" then some { fileName := some "b.zip", fileData := some "B2" } else none)
      = DownloadResult.noDeliverable := by
  constructor
  · exact (c3_download_resolution_precedence _ "u1" "customer" _ (Or.inl rfl)).1
      { fileName := some "own.zip", fileData := some "OWN" } "OWN" rfl rfl (by decide)
  · exact (c3_download_resolution_precedence _ "u1" "customer" _ (Or.inl rfl)).2
      rfl rfl "p1" ["p2"] rfl (by decide)

/-- C4: the artifact read never errors: a missing artifact and an empty
artifact read as the empty sequence; whenever the cleaned payload still
fails to parse, the result is the empty sequence; a single trailing comma
before each closing delimiter is stripped and the content parses; two
trailing commas before one delimiter survive the single-pass strip and the
read degrades to the empty sequence. -/
theorem c4_read_parse_leniency :
    readProductsFromConstant none = Json.arr []
    ∧ readProductsFromConstant (some "") = Json.arr []
    ∧ (∀ s cs, cleanedPayloadOf s = some cs → jsonParse cs = none →
        readProductsFromConstant (some s) = Json.arr [])
    ∧ readProductsFromConstant
        (some "export const products = [\n  \x7b\n    \"id\": \"p1\",\n  \x7d,\n];")
        = Json.arr [Json.obj [("id", Json.str "p1")]]
    ∧ readProductsFromConstant (some "export const products = [1,,];") = Json.arr [] := by
  refine ⟨rfl, rfl, ?_, rfl, rfl⟩
  intro s cs h1 h2
  simp [readProductsFromConstant, h1, h2]

/-- C4 witness: the malformed artifact `[1,,]` cleans to the still-invalid
`[1,]`, and the read yields the empty sequence. -/
theorem c4_read_parse_leniency_witness :
    cleanedPayloadOf "export const products = [1,,];" = some "[1,]".toList
    ∧ jsonParse "[1,]".toList = none
    ∧ readProductsFromConstant (some "export const products = [1,,];") = Json.arr [] := by
  refine ⟨rfl, rfl, ?_⟩
  exact c4_read_parse_leniency.2.2.1 "export const products = [1,,];" "[1,]".toList rfl rfl

/-- C5 counterexample: the claim reads: add fails with ValidationError if
and only if a required field is missing, so a request with price 0 and all
required fields present succeeds.  The gate is JS truthiness
(`!title || !description || !images || !price || !category`), so a request
with every required field present but `price === 0` is rejected (0 is
falsy) and the add route answers the validation error; dually, a present
but empty `images` array is accepted (arrays are truthy). -/
theorem c5_price_zero_rejected_counterexample :
    addReqPriceZero.price = some 0
    ∧ validateAdd addReqPriceZero = false
    ∧ addProduct addReqPriceZero "fresh" true [] = ([], Except.error ApiErr.validation)
    ∧ addReqEmptyImages.images = some []
    ∧ validateAdd addReqEmptyImages = true := by
  refine ⟨rfl, rfl, rfl, rfl, rfl⟩

/-- C5 (amended): add fails with ValidationError if and only if one of
title, description, images, price, category is missing or JS-falsy: absent
or the empty string for the text fields, absent or zero for price, absent
for images (a present images array passes even when empty).  In
particular a request with price 0 is rejected. -/
theorem c5_validation_falsy_iff (r : AddReq) :
    validateAdd r = false ↔
      (r.title = none ∨ r.title = some "") ∨
      (r.description = none ∨ r.description = some "") ∨
      r.images = none ∨
      (r.price = none ∨ r.price = some 0) ∨
      (r.category = none ∨ r.category = some "") := by
  obtain ⟨t, d, ft, im, pr, cat, ty, df⟩ := r
  simp only [validateAdd]
  cases t <;> cases d <;> cases im <;> cases pr <;> cases cat <;>
    simp [jsTruthyStr, jsTruthyList, jsTruthyInt] <;> tauto

/-- C6: when an add request carries a downloadable payload with data, the
blob-store create is issued strictly before the metadata write (the trace
is exactly create-then-write); and when the blob create fails, the handler
answers the error with an empty mutation trace: the metadata artifact is
never written, so neither store changes. -/
theorem c6_add_blob_put_precedes_metadata_write (r : AddReq) (freshId : String)
    (products : List Product) (df : DFile) (d : String)
    (hval : validateAdd r = true) (hdf : r.downloadableFile = some df)
    (hd : df.fileData = some d) (hne : d ≠ "") :
    addProduct r freshId true products =
      ([.blobCreate freshId df.fileName d,
        .metaWrite (newProductOf r freshId :: products)],
        .ok (newProductOf r freshId))
    ∧ addProduct r freshId false products = ([], .error .persistence) := by
  have ht : dfTruthyData r.downloadableFile = some (df.fileName, d) := by
    simp [dfTruthyData, hdf, hd, hne]
  constructor <;> simp [addProduct, hval, ht]

/-- C6 witness: a concrete add with a ZIP payload traces create then
write when the blob store accepts, and fails with no mutation at all when
it rejects. -/
theorem c6_add_blob_put_precedes_metadata_write_witness :
    addProduct addReqSample "fresh" true [] =
      ([StoreOp.blobCreate "fresh" (some "f.zip") "DATA",
        StoreOp.metaWrite [newProductOf addReqSample "fresh"]],
        Except.ok (newProductOf addReqSample "fresh"))
    ∧ addProduct addReqSample "fresh" false [] = ([], Except.error ApiErr.persistence) := by
  exact c6_add_blob_put_precedes_metadata_write addReqSample "fresh" []
    { fileName := some "f.zip", fileData := some "DATA" } "DATA" (by decide) rfl rfl (by decide)

/-- C7 counterexample: the claim reads: when the payload field is not
provided at all, the existing blob and `downloadableFileName` are left
untouched.  The update route spreads every caller-sent metadata field, and
`downloadableFileName` is one of them: with no `downloadableFile` in the
body but a bare `downloadableFileName: "sneaky.zip"` among the fields, the
stored record's `downloadableFileName` changes (no blob operation runs,
so it now names a blob that was never stored). -/
theorem c7_payload_absent_dfn_changed_counterexample :
    updateProduct "p1" PayloadField.absent
        { downloadableFileName := some (some "sneaky.zip") } [prodOne] =
      ([StoreOp.metaWrite [prodSneaky]], Except.ok ([prodSneaky], prodSneaky))
    ∧ prodSneaky.downloadableFileName ≠ prodOne.downloadableFileName := by
  refine ⟨rfl, by decide⟩

/-- C7 (amended): payload handling of update is a three-way split on the
`downloadableFile` field.  Supplied with data: the blob upsert is issued
first (before the metadata write) and `downloadableFileName` becomes the
new file name.  Explicitly null: the blob delete is issued first and
`downloadableFileName` becomes null.  Not provided: no blob operation
runs, and `downloadableFileName` is left untouched provided the caller
does not also send a bare `downloadableFileName` among the update fields
(that field is merged like any other metadata). -/
theorem c7_update_payload_three_way (id : String) (f : UpdateFields)
    (pre post : List Product) (old : Product)
    (hold : old.id = id) (hpre : ∀ p ∈ pre, p.id ≠ id) :
    (∀ fn d, d ≠ "" →
      updateProduct id (.given ⟨fn, some d⟩) f (pre ++ old :: post) =
        ([.blobUpsert id fn d,
          .metaWrite (pre ++ mergeFields id old f (some fn) :: post)],
          .ok (pre ++ mergeFields id old f (some fn) :: post, mergeFields id old f (some fn)))
      ∧ (mergeFields id old f (some fn)).downloadableFileName = fn)
    ∧ (updateProduct id .nullClear f (pre ++ old :: post) =
        ([.blobDelete id,
          .metaWrite (pre ++ mergeFields id old f (some none) :: post)],
          .ok (pre ++ mergeFields id old f (some none) :: post, mergeFields id old f (some none)))
      ∧ (mergeFields id old f (some none)).downloadableFileName = none)
    ∧ (f.downloadableFileName = none →
        updateProduct id .absent f (pre ++ old :: post) =
          ([.metaWrite (pre ++ mergeFields id old f none :: post)],
            .ok (pre ++ mergeFields id old f none :: post, mergeFields id old f none))
        ∧ (mergeFields id old f none).downloadableFileName = old.downloadableFileName) := by
  have hf := findFirstProduct_append id post old hold pre hpre
  have hr := fun m => replaceFirstProduct_append id post old m hold pre hpre
  refine ⟨?_, ?_, ?_⟩
  · intro fn d hd
    refine ⟨?_, rfl⟩
    simp [updateProduct, hf, applyUpdate, dfTruthyData, hd, hr]
  · refine ⟨?_, rfl⟩
    simp [updateProduct, hf, applyUpdate, hr]
  · intro hdfn
    refine ⟨?_, by simp [mergeFields]⟩
    simp [updateProduct, hf, applyUpdate, hdfn, hr]

/-- C7 witness: the three payload cases on a concrete stored product with
an empty update-field set: upsert-then-write with the new name, delete-
then-write with null, and a bare metadata write leaving the stored
file name untouched. -/
theorem c7_update_payload_three_way_witness :
    (updateProduct "p1" (PayloadField.given ⟨some "new.zip", some "DATA"⟩) {} [prodOne] =
      ([StoreOp.blobUpsert "p1" (some "new.zip") "DATA",
        StoreOp.metaWrite [mergeFields "p1" prodOne {} (some (some "new.zip"))]],
        Except.ok ([mergeFields "p1" prodOne {} (some (some "new.zip"))],
          mergeFields "p1" prodOne {} (some (some "new.zip")))))
    ∧ (updateProduct "p1" PayloadField.nullClear {} [prodOne] =
      ([StoreOp.blobDelete "p1",
        StoreOp.metaWrite [mergeFields "p1" prodOne {} (some none)]],
        Except.ok ([mergeFields "p1" prodOne {} (some none)],
          mergeFields "p1" prodOne {} (some none))))
    ∧ (updateProduct "p1" PayloadField.absent {} [prodOne] =
      ([StoreOp.metaWrite [mergeFields "p1" prodOne {} none]],
        Except.ok ([mergeFields "p1" prodOne {} none], mergeFields "p1" prodOne {} none)))
    ∧ (mergeFields "p1" prodOne {} none).downloadableFileName = prodOne.downloadableFileName := by
  have h := c7_update_payload_three_way "p1" {} [] [] prodOne rfl (by simp)
  exact ⟨(h.1 (some "new.zip") "DATA" (by decide)).1, h.2.1.1, (h.2.2 rfl).1, (h.2.2 rfl).2⟩

/-- C8: for an update of an existing record, the stored record's id after
the update equals its id before it, whatever id value the caller put among
the update fields (the id field of `f` is unconstrained); every other
standard field is the caller's value when supplied and the old value when
not, and the record is replaced in place in the collection. -/
theorem c8_update_id_immutable_merge (id : String) (payload : PayloadField)
    (f : UpdateFields) (pre post : List Product) (old : Product)
    (hold : old.id = id) (hpre : ∀ p ∈ pre, p.id ≠ id) :
    ∃ ops m, updateProduct id payload f (pre ++ old :: post) =
        (ops, .ok (pre ++ m :: post, m))
      ∧ m.id = old.id
      ∧ m.title = f.title.getD old.title
      ∧ m.description = f.description.getD old.description
      ∧ m.features = f.features.getD old.features
      ∧ m.images = f.images.getD old.images
      ∧ m.price = f.price.getD old.price
      ∧ m.category = f.category.getD old.category
      ∧ m.type = f.type.getD old.type := by
  obtain ⟨ops, dfnOv, hav⟩ := applyUpdate_merge id payload f old
  refine ⟨ops ++ [.metaWrite (pre ++ mergeFields id old f dfnOv :: post)],
    mergeFields id old f dfnOv, ?_, ?_, rfl, rfl, rfl, rfl, rfl, rfl, rfl⟩
  · simp [updateProduct, findFirstProduct_append id post old hold pre hpre, hav,
      replaceFirstProduct_append id post old _ hold pre hpre]
  · simpa [mergeFields] using hold.symm

/-- C8 witness: an update body carrying `id: "evil"` and a new title on a
concrete stored record: the stored id stays "p1", the title changes, and
every unsupplied field is preserved. -/
theorem c8_update_id_immutable_merge_witness :
    ∃ ops m, updateProduct "p1" PayloadField.absent
        { id := some "evil", title := some "new-title" } [prodOne] =
        (ops, .ok ([m], m))
      ∧ m.id = prodOne.id
      ∧ m.title = (some "new-title" : Option String).getD prodOne.title
      ∧ m.description = (none : Option String).getD prodOne.description
      ∧ m.features = (none : Option (List String)).getD prodOne.features
      ∧ m.images = (none : Option (List String)).getD prodOne.images
      ∧ m.price = (none : Option Int).getD prodOne.price
      ∧ m.category = (none : Option String).getD prodOne.category
      ∧ m.type = (none : Option String).getD prodOne.type := by
  exact c8_update_id_immutable_merge "p1" PayloadField.absent
    { id := some "evil", title := some "new-title" } [] [] prodOne rfl (by simp)

/-- C9: an update whose id matches no stored record answers not-found with
an empty mutation trace: no blob-store operation and no metadata write,
even when the body supplies a new payload or an explicit clear. -/
theorem c9_update_missing_id_no_mutation (id : String) (payload : PayloadField)
    (f : UpdateFields) (products : List Product)
    (habs : ∀ p ∈ products, p.id ≠ id) :
    updateProduct id payload f products = ([], .error .notFound) := by
  simp [updateProduct, findFirstProduct_eq_none id products habs]

/-- C9 witness: an update of an absent id that supplies a new payload
still mutates nothing and answers not-found. -/
theorem c9_update_missing_id_no_mutation_witness :
    updateProduct "p9" (PayloadField.given ⟨some "n.zip", some "D"⟩) {} [prodOne] =
      ([], Except.error ApiErr.notFound) := by
  exact c9_update_missing_id_no_mutation "p9" _ {} [prodOne] (by decide)

/-- C10: a listing request with a valid credential whose user id matches
no user record succeeds, flags every product `wishlisted = false`, and
coincides with the anonymous listing. -/
theorem c10_listing_unknown_user_wishlist_false (uid : String)
    (findUser : String → Option UserRec) (products : List Product)
    (hmiss : findUser uid = none) :
    listCatalog (some uid) findUser products = products.map (fun p => (p, false))
    ∧ listCatalog (some uid) findUser products = listCatalog none findUser products := by
  constructor <;> simp [listCatalog, hmiss]

/-- C10 witness: a concrete authenticated listing against an empty user
store equals the anonymous listing, all flags false. -/
theorem c10_listing_unknown_user_wishlist_false_witness :
    listCatalog (some "u9") (fun _ => none) [prodOne] = [(prodOne, false)]
    ∧ listCatalog (some "u9") (fun _ => none) [prodOne] =
        listCatalog none (fun _ => none) [prodOne] := by
  exact c10_listing_unknown_user_wishlist_false "u9" (fun _ => none) [prodOne] rfl
